import Mathlib

/-!
Shallow embedding of the screen-share relay server (`src/server.js`).

The server keeps an in-memory `sessions` Map and handles socket.io events.
We model the server as a pure step function on a `ServerState` holding the
session table and the per-connection socket state (joined rooms, recorded
sessionId and role).  Each inbound event yields the next state together with
the list of outbound messages; every outbound message carries the concrete
list of recipient connection ids, computed from room membership exactly as
socket.io delivers them (`socket.to(room)` = members of the room except the
sender, `io.to(room)` = all members, `socket.emit` = the sender alone).
-/

namespace ScreenShare

/-- Drawing payloads are opaque to the server (`data.drawingData` is pushed
verbatim); we model them as natural numbers. -/
abbrev DrawingOp := Nat

/-- A session record, as created by `POST /api/create-session`:
`{id, fileUrl, fileType, currentPage, totalPages, drawings, users:{consultant, customers}}`. -/
structure Session where
  id : String
  fileUrl : Option String
  fileType : Option String
  currentPage : Int
  totalPages : Int
  drawings : List DrawingOp
  consultant : Option String
  customers : List String
deriving Repr, DecidableEq

/-- Per-connection server-side socket state: the rooms the socket has joined
(`socket.join`), and the `socket.sessionId` / `socket.role` fields the
join-session handler assigns. -/
structure SocketInfo where
  rooms : List String
  sessionId : Option String
  role : Option String
deriving Repr, DecidableEq

/-- The whole server state: the `sessions` Map keyed by session id, and the
connected sockets keyed by socket id. -/
structure ServerState where
  sessions : List (String × Session)
  sockets : List (String × SocketInfo)
deriving Repr, DecidableEq

/-- The `data` object of a draw/eraser event: the handlers read
`data.sessionId`, `data.drawingData` (draw-end) and `data.eraserData`
(eraser-end), and re-emit `data` verbatim. -/
structure DrawData where
  sessionId : String
  drawingData : Option DrawingOp
  eraserData : Option DrawingOp
deriving Repr, DecidableEq

/-- Payloads of outbound events. -/
inductive OutPayload where
  | errorMsg (message : String)
  | sessionState (fileUrl fileType : Option String) (currentPage totalPages : Int)
      (drawings : List DrawingOp)
  | customerCount (count : Nat)
  | userJoined (role : String)
  | pageChanged (page totalPages : Int)
  | drawData (d : DrawData)
  | pointerData (sessionId : String) (x y : Int) (visible : Bool)
  | fileLoaded (fileUrl fileType : String)
  | unit
  | userLeft (role : Option String)
deriving Repr, DecidableEq

/-- An outbound message: the concrete recipients, the event name, and the
payload. -/
structure OutMsg where
  recipients : List String
  event : String
  payload : OutPayload
deriving Repr, DecidableEq

/-- Inbound events.  Socket events carry the emitting socket's id `sid`;
`createSession` carries the id produced by `uuidv4().slice(0, 8)`, and
`uploadFile` the resolved file url and type of the HTTP upload. -/
inductive InEvent where
  | createSession (genId : String)
  | uploadFile (sessionId fileUrl fileType : String)
  | joinSession (sid sessionId role : String)
  | pageChange (sid sessionId : String) (page totalPages : Int)
  | drawStart (sid : String) (d : DrawData)
  | drawingEv (sid : String) (d : DrawData)
  | drawEnd (sid : String) (d : DrawData)
  | eraserStart (sid : String) (d : DrawData)
  | erasing (sid : String) (d : DrawData)
  | eraserEnd (sid : String) (d : DrawData)
  | clearDrawings (sid sessionId : String)
  | undoDrawing (sid sessionId : String)
  | pointerMove (sid sessionId : String) (x y : Int) (visible : Bool)
  | disconnect (sid : String)
deriving Repr, DecidableEq

/-- Lookup in an association list (the semantics of `Map.get`). -/
def lookupStr {α : Type} (m : List (String × α)) (k : String) : Option α :=
  match m with
  | [] => none
  | (k', v) :: rest => if k' = k then some v else lookupStr rest k

/-- Insert or replace in an association list (the semantics of `Map.set`:
replace in place when the key is present, else append). -/
def insertStr {α : Type} (m : List (String × α)) (k : String) (v : α) :
    List (String × α) :=
  match m with
  | [] => [(k, v)]
  | (k', v') :: rest =>
      if k' = k then (k, v) :: rest else (k', v') :: insertStr rest k v

/-- Remove a key from an association list (the semantics of `Map.delete`). -/
def removeStr {α : Type} (m : List (String × α)) (k : String) :
    List (String × α) :=
  match m with
  | [] => []
  | (k', v') :: rest =>
      if k' = k then rest else (k', v') :: removeStr rest k

/-- The members of a room: the sockets that have joined it. -/
def roomMembersL (sockets : List (String × SocketInfo)) (room : String) :
    List String :=
  (sockets.filter (fun p => room ∈ p.2.rooms)).map Prod.fst

/-- Room membership of a server state. -/
def roomMembers (st : ServerState) (room : String) : List String :=
  roomMembersL st.sockets room

/-- Recipients of `socket.to(room).emit`: all members of the room except the
sender. -/
def roomExcept (sockets : List (String × SocketInfo)) (room sid : String) :
    List String :=
  (roomMembersL sockets room).filter (fun x => x ≠ sid)

/-- The session record inserted by `POST /api/create-session`. -/
def defaultSession (id : String) : Session :=
  { id := id, fileUrl := none, fileType := none, currentPage := 1,
    totalPages := 1, drawings := [], consultant := none, customers := [] }

/-- `POST /api/create-session`: insert a fresh default session under the
generated id and return that id to the caller. -/
def createSession (st : ServerState) (genId : String) : ServerState × String :=
  ({ st with sessions := insertStr st.sessions genId (defaultSession genId) },
   genId)

/-- `POST /api/upload-file/:sessionId`: 404 when the session is unknown;
otherwise set the file fields, reset `currentPage` to 1, clear `drawings`, and
emit `file-loaded` to the whole room. -/
def uploadFile (st : ServerState) (sessionId fileUrl fileType : String) :
    ServerState × List OutMsg :=
  match lookupStr st.sessions sessionId with
  | none => (st, [])
  | some sess =>
      let sess' := { sess with
        fileUrl := some fileUrl, fileType := some fileType,
        currentPage := 1, drawings := [] }
      ({ st with sessions := insertStr st.sessions sessionId sess' },
       [⟨roomMembersL st.sockets sessionId, "file-loaded",
         .fileLoaded fileUrl fileType⟩])

/-- `sendCustomerCount`: when the session exists, emit `customer-count` with
the size of its customers set to the whole room (`io.to(sessionId)`). -/
def sendCustomerCount (st : ServerState) (sessionId : String) : List OutMsg :=
  match lookupStr st.sessions sessionId with
  | none => []
  | some sess =>
      [⟨roomMembersL st.sockets sessionId, "customer-count",
        .customerCount sess.customers.length⟩]

/-- The `join-session` handler. -/
def joinSession (st : ServerState) (sid sessionId role : String) :
    ServerState × List OutMsg :=
  match lookupStr st.sessions sessionId with
  | none => (st, [⟨[sid], "error", .errorMsg "세션을 찾을 수 없습니다."⟩])
  | some sess =>
      let info := (lookupStr st.sockets sid).getD
        { rooms := [], sessionId := none, role := none }
      let info' : SocketInfo :=
        { rooms := if sessionId ∈ info.rooms then info.rooms
                   else sessionId :: info.rooms,
          sessionId := some sessionId, role := some role }
      let sockets' := insertStr st.sockets sid info'
      if role = "consultant" then
        let sess' := { sess with consultant := some sid }
        let st2 : ServerState :=
          { sessions := insertStr st.sessions sessionId sess',
            sockets := sockets' }
        (st2, sendCustomerCount st2 sessionId ++
          [⟨roomExcept sockets' sessionId sid, "user-joined",
            .userJoined role⟩])
      else
        let sess' := { sess with customers :=
          if sid ∈ sess.customers then sess.customers
          else sid :: sess.customers }
        let st2 : ServerState :=
          { sessions := insertStr st.sessions sessionId sess',
            sockets := sockets' }
        (st2,
         ⟨[sid], "session-state",
           .sessionState sess.fileUrl sess.fileType sess.currentPage
             sess.totalPages sess.drawings⟩ ::
         sendCustomerCount st2 sessionId ++
         [⟨roomExcept sockets' sessionId sid, "user-joined",
           .userJoined role⟩])

/-- The `page-change` handler. -/
def pageChange (st : ServerState) (sid sessionId : String)
    (page totalPages : Int) : ServerState × List OutMsg :=
  match lookupStr st.sessions sessionId with
  | none => (st, [])
  | some sess =>
      let sess' := { sess with
        currentPage := page, totalPages := totalPages, drawings := [] }
      ({ st with sessions := insertStr st.sessions sessionId sess' },
       [⟨roomExcept st.sockets sessionId sid, "page-changed",
         .pageChanged page totalPages⟩])

/-- The `draw-end` handler: push `data.drawingData` when the session exists
and the payload is present, then relay `data` to the others. -/
def drawEnd (st : ServerState) (sid : String) (d : DrawData) :
    ServerState × List OutMsg :=
  let st' :=
    match lookupStr st.sessions d.sessionId, d.drawingData with
    | some sess, some op =>
        let sess' := { sess with drawings := sess.drawings ++ [op] }
        { st with sessions := insertStr st.sessions d.sessionId sess' }
    | _, _ => st
  (st', [⟨roomExcept st.sockets d.sessionId sid, "draw-ended", .drawData d⟩])

/-- The `eraser-end` handler: like `draw-end` but pushes `data.eraserData`. -/
def eraserEnd (st : ServerState) (sid : String) (d : DrawData) :
    ServerState × List OutMsg :=
  let st' :=
    match lookupStr st.sessions d.sessionId, d.eraserData with
    | some sess, some op =>
        let sess' := { sess with drawings := sess.drawings ++ [op] }
        { st with sessions := insertStr st.sessions d.sessionId sess' }
    | _, _ => st
  (st', [⟨roomExcept st.sockets d.sessionId sid, "eraser-ended", .drawData d⟩])

/-- The `clear-drawings` handler: clear when the session exists, always relay
`drawings-cleared`. -/
def clearDrawings (st : ServerState) (sid sessionId : String) :
    ServerState × List OutMsg :=
  let st' :=
    match lookupStr st.sessions sessionId with
    | some sess =>
        let sess' := { sess with drawings := [] }
        { st with sessions := insertStr st.sessions sessionId sess' }
    | none => st
  (st', [⟨roomExcept st.sockets sessionId sid, "drawings-cleared", .unit⟩])

/-- The `undo-drawing` handler: pop the most recent drawing when the session
exists and has one, always relay `drawing-undone`. -/
def undoDrawing (st : ServerState) (sid sessionId : String) :
    ServerState × List OutMsg :=
  let st' :=
    match lookupStr st.sessions sessionId with
    | some sess =>
        if sess.drawings.length > 0 then
          let sess' := { sess with drawings := sess.drawings.dropLast }
          { st with sessions := insertStr st.sessions sessionId sess' }
        else st
    | none => st
  (st', [⟨roomExcept st.sockets sessionId sid, "drawing-undone", .unit⟩])

/-- The `disconnect` handler: when the socket had joined a session, clear the
consultant slot (role consultant) or delete it from the customers set and
resend the customer count, then tell the others the user left.  The transport
removes the disconnected socket and its room memberships. -/
def disconnect (st : ServerState) (sid : String) : ServerState × List OutMsg :=
  match lookupStr st.sockets sid with
  | none => (st, [])
  | some info =>
      let stR : ServerState :=
        { st with sockets := removeStr st.sockets sid }
      match info.sessionId with
      | none => (stR, [])
      | some sessId =>
          let (st', msgs) :=
            match lookupStr stR.sessions sessId with
            | none => (stR, [])
            | some sess =>
                if info.role = some "consultant" then
                  let sess' := { sess with consultant := none }
                  ({ stR with sessions := insertStr stR.sessions sessId sess' },
                   ([] : List OutMsg))
                else
                  let sess' :=
                    { sess with customers := sess.customers.erase sid }
                  let st2 : ServerState :=
                    { stR with sessions := insertStr stR.sessions sessId sess' }
                  (st2, sendCustomerCount st2 sessId)
          (st', msgs ++
            [⟨roomExcept st'.sockets sessId sid, "user-left",
              .userLeft info.role⟩])

/-- One step of the server: dispatch an inbound event to its handler.
`draw-start`, `drawing`, `eraser-start`, `erasing` and `pointer-move` only
relay their data to the others in the room. -/
def step (st : ServerState) (e : InEvent) : ServerState × List OutMsg :=
  match e with
  | .createSession genId => ((createSession st genId).1, [])
  | .uploadFile sessionId fileUrl fileType =>
      uploadFile st sessionId fileUrl fileType
  | .joinSession sid sessionId role => joinSession st sid sessionId role
  | .pageChange sid sessionId page totalPages =>
      pageChange st sid sessionId page totalPages
  | .drawStart sid d =>
      (st, [⟨roomExcept st.sockets d.sessionId sid, "draw-started",
        .drawData d⟩])
  | .drawingEv sid d =>
      (st, [⟨roomExcept st.sockets d.sessionId sid, "drawing-update",
        .drawData d⟩])
  | .drawEnd sid d => drawEnd st sid d
  | .eraserStart sid d =>
      (st, [⟨roomExcept st.sockets d.sessionId sid, "eraser-started",
        .drawData d⟩])
  | .erasing sid d =>
      (st, [⟨roomExcept st.sockets d.sessionId sid, "erasing-update",
        .drawData d⟩])
  | .eraserEnd sid d => eraserEnd st sid d
  | .clearDrawings sid sessionId => clearDrawings st sid sessionId
  | .undoDrawing sid sessionId => undoDrawing st sid sessionId
  | .pointerMove sid sessionId x y visible =>
      (st, [⟨roomExcept st.sockets sessionId sid, "pointer-moved",
        .pointerData sessionId x y visible⟩])
  | .disconnect sid => disconnect st sid

/-- Run a list of inbound events from a state. -/
def runEvents (st : ServerState) (es : List InEvent) : ServerState :=
  es.foldl (fun s e => (step s e).1) st

/-- `customerCount(sessionId)`: size of the customers set, 0 when the session
is unknown. -/
def customerCount (st : ServerState) (sessionId : String) : Nat :=
  match lookupStr st.sessions sessionId with
  | none => 0
  | some sess => sess.customers.length

/-- The identifiers of the sessions currently live in the store. -/
def liveSessionIds (st : ServerState) : List String :=
  st.sessions.map Prod.fst

/-- The session id an inbound event addresses (`data.sessionId`). -/
def eventSession : InEvent → Option String
  | .createSession _ => none
  | .uploadFile sessionId _ _ => some sessionId
  | .joinSession _ sessionId _ => some sessionId
  | .pageChange _ sessionId _ _ => some sessionId
  | .drawStart _ d => some d.sessionId
  | .drawingEv _ d => some d.sessionId
  | .drawEnd _ d => some d.sessionId
  | .eraserStart _ d => some d.sessionId
  | .erasing _ d => some d.sessionId
  | .eraserEnd _ d => some d.sessionId
  | .clearDrawings _ sessionId => some sessionId
  | .undoDrawing _ sessionId => some sessionId
  | .pointerMove _ sessionId _ _ _ => some sessionId
  | .disconnect _ => none

/-- The socket that emitted a peer event (none for the HTTP boundary calls). -/
def senderOf : InEvent → Option String
  | .createSession _ => none
  | .uploadFile _ _ _ => none
  | .joinSession sid _ _ => some sid
  | .pageChange sid _ _ _ => some sid
  | .drawStart sid _ => some sid
  | .drawingEv sid _ => some sid
  | .drawEnd sid _ => some sid
  | .eraserStart sid _ => some sid
  | .erasing sid _ => some sid
  | .eraserEnd sid _ => some sid
  | .clearDrawings sid _ => some sid
  | .undoDrawing sid _ => some sid
  | .pointerMove sid _ _ _ _ => some sid
  | .disconnect sid => some sid

/-- The room a peer event is routed to: the event's `sessionId` field, or for
a disconnect the session recorded on the socket. -/
def targetRoom (st : ServerState) : InEvent → Option String
  | .disconnect sid => (lookupStr st.sockets sid).bind (fun i => i.sessionId)
  | e => eventSession e

/-- Invariant: every room any socket has joined names a live session (a socket
only ever joins the room of a session that existed, and sessions are never
removed from the store). -/
def roomsLive (st : ServerState) : Prop :=
  ∀ p ∈ st.sockets, ∀ r ∈ p.2.rooms, (lookupStr st.sessions r).isSome

/-- States reachable from the empty server by a sequence of events. -/
inductive Reachable : ServerState → Prop where
  | init : Reachable ⟨[], []⟩
  | tail {st : ServerState} (e : InEvent) :
      Reachable st → Reachable (step st e).1

/-! Lemmas about the association-list operations. -/

theorem lookupStr_insertStr_self {α : Type} (m : List (String × α))
    (k : String) (v : α) : lookupStr (insertStr m k v) k = some v := by
  induction m with
  | nil => simp [insertStr, lookupStr]
  | cons p rest ih =>
      obtain ⟨k', v'⟩ := p
      by_cases h : k' = k
      · simp [insertStr, h, lookupStr]
      · simp [insertStr, h, lookupStr, ih]

theorem lookupStr_insertStr_ne {α : Type} (m : List (String × α))
    (k k' : String) (v : α) (h : k' ≠ k) :
    lookupStr (insertStr m k v) k' = lookupStr m k' := by
  induction m with
  | nil => simp [insertStr, lookupStr, Ne.symm h]
  | cons p rest ih =>
      obtain ⟨k'', v'⟩ := p
      by_cases hk : k'' = k
      · subst hk
        simp [insertStr, lookupStr, Ne.symm h]
      · simp only [insertStr, if_neg hk, lookupStr]
        by_cases hk' : k'' = k'
        · simp [hk']
        · simp [hk', ih]

theorem lookupStr_removeStr_ne {α : Type} (m : List (String × α))
    (k k' : String) (h : k' ≠ k) :
    lookupStr (removeStr m k) k' = lookupStr m k' := by
  induction m with
  | nil => simp [removeStr]
  | cons p rest ih =>
      obtain ⟨k'', v'⟩ := p
      by_cases hk : k'' = k
      · subst hk
        simp [removeStr, lookupStr, Ne.symm h]
      · simp only [removeStr, if_neg hk, lookupStr]
        by_cases hk' : k'' = k'
        · simp [hk']
        · simp [hk', ih]

theorem mem_of_lookupStr {α : Type} {m : List (String × α)} {k : String}
    {v : α} (h : lookupStr m k = some v) : (k, v) ∈ m := by
  induction m with
  | nil => simp [lookupStr] at h
  | cons p rest ih =>
      obtain ⟨k', v'⟩ := p
      by_cases hk : k' = k
      · subst hk
        simp [lookupStr] at h
        simp [h]
      · simp [lookupStr, hk] at h
        exact List.mem_cons_of_mem _ (ih h)

theorem mem_insertStr {α : Type} {m : List (String × α)} {k : String}
    {v : α} {p : String × α} (h : p ∈ insertStr m k v) :
    p = (k, v) ∨ p ∈ m := by
  induction m with
  | nil => simpa [insertStr] using h
  | cons q rest ih =>
      obtain ⟨k', v'⟩ := q
      by_cases hk : k' = k
      · simp [insertStr, hk] at h
        rcases h with h | h
        · exact Or.inl h
        · exact Or.inr (List.mem_cons_of_mem _ h)
      · simp only [insertStr, if_neg hk, List.mem_cons] at h
        rcases h with h | h
        · exact Or.inr (by simp [h])
        · rcases ih h with h' | h'
          · exact Or.inl h'
          · exact Or.inr (List.mem_cons_of_mem _ h')

theorem mem_insertStr_of_ne {α : Type} {m : List (String × α)} {k : String}
    {v : α} {p : String × α} (h : p ∈ m) (hne : p.1 ≠ k) :
    p ∈ insertStr m k v := by
  induction m with
  | nil => simp at h
  | cons q rest ih =>
      obtain ⟨k', v'⟩ := q
      rcases List.mem_cons.mp h with h' | h'
      · subst h'
        have : k' ≠ k := hne
        simp [insertStr, this]
      · by_cases hk : k' = k
        · simp [insertStr, hk]
          exact Or.inr h'
        · simp only [insertStr, if_neg hk, List.mem_cons]
          exact Or.inr (ih h')

theorem mem_of_mem_removeStr {α : Type} {m : List (String × α)} {k : String}
    {p : String × α} (h : p ∈ removeStr m k) : p ∈ m := by
  induction m with
  | nil => simp [removeStr] at h
  | cons q rest ih =>
      obtain ⟨k', v'⟩ := q
      by_cases hk : k' = k
      · simp only [removeStr, if_pos hk] at h
        exact List.mem_cons_of_mem _ h
      · simp only [removeStr, if_neg hk, List.mem_cons] at h
        rcases h with h | h
        · simp [h]
        · exact List.mem_cons_of_mem _ (ih h)

theorem isSome_lookupStr_insertStr {α : Type} (m : List (String × α))
    (k r : String) (v : α) (h : (lookupStr m r).isSome) :
    (lookupStr (insertStr m k v) r).isSome := by
  by_cases hk : r = k
  · subst hk
    simp [lookupStr_insertStr_self]
  · rwa [lookupStr_insertStr_ne _ _ _ _ hk]

/-! Lemmas about room membership. -/

theorem mem_roomMembersL {sockets : List (String × SocketInfo)}
    {room x : String} :
    x ∈ roomMembersL sockets room ↔
      ∃ i : SocketInfo, (x, i) ∈ sockets ∧ room ∈ i.rooms := by
  simp only [roomMembersL, List.mem_map, List.mem_filter]
  constructor
  · rintro ⟨⟨k, i⟩, ⟨hm, hr⟩, rfl⟩
    exact ⟨i, hm, by simpa using hr⟩
  · rintro ⟨i, hm, hr⟩
    exact ⟨(x, i), ⟨hm, by simpa using hr⟩, rfl⟩

theorem roomMembersL_eq_nil {sessions : List (String × Session)}
    {sockets : List (String × SocketInfo)} {s : String}
    (hlive : ∀ p ∈ sockets, ∀ r ∈ p.2.rooms, (lookupStr sessions r).isSome)
    (hdead : lookupStr sessions s = none) :
    roomMembersL sockets s = [] := by
  unfold roomMembersL
  rw [List.filter_eq_nil_iff.mpr, List.map_nil]
  intro p hp
  simp only [decide_eq_true_eq]
  intro hr
  have := hlive p hp s hr
  rw [hdead] at this
  simp at this

/-! The rooms-live invariant and its preservation. -/

theorem roomsLive_mono {st st' : ServerState}
    (hsock : ∀ p ∈ st'.sockets, p ∈ st.sockets)
    (hsess : ∀ r : String,
      (lookupStr st.sessions r).isSome → (lookupStr st'.sessions r).isSome)
    (h : roomsLive st) : roomsLive st' := by
  intro p hp r hr
  exact hsess r (h p (hsock p hp) r hr)

theorem roomsLive_insert_session (st : ServerState) (k : String) (v : Session)
    (h : roomsLive st) :
    roomsLive { st with sessions := insertStr st.sessions k v } :=
  @roomsLive_mono st { st with sessions := insertStr st.sessions k v }
    (fun _ hp => hp) (fun _ hr => isSome_lookupStr_insertStr _ _ _ _ hr) h

theorem roomsLive_step (st : ServerState) (e : InEvent) (h : roomsLive st) :
    roomsLive (step st e).1 := by
  cases e with
  | createSession genId => exact roomsLive_insert_session _ _ _ h
  | uploadFile sessionId fileUrl fileType =>
      simp only [step, uploadFile]
      split
      · exact h
      · exact roomsLive_insert_session _ _ _ h
  | joinSession sid sessionId role =>
      simp only [step, joinSession]
      split
      · exact h
      · rename_i sess hl
        have key : ∀ sess' : Session,
            roomsLive
              { sessions := insertStr st.sessions sessionId sess',
                sockets := insertStr st.sockets sid
                  { rooms :=
                      if sessionId ∈ ((lookupStr st.sockets sid).getD
                        { rooms := [], sessionId := none, role := none }).rooms
                      then ((lookupStr st.sockets sid).getD
                        { rooms := [], sessionId := none, role := none }).rooms
                      else sessionId :: ((lookupStr st.sockets sid).getD
                        { rooms := [], sessionId := none, role := none }).rooms,
                    sessionId := some sessionId, role := some role } } := by
          intro sess'
          intro p hp r hr
          rcases mem_insertStr hp with rfl | hp'
          · have hr' : r = sessionId ∨
                r ∈ ((lookupStr st.sockets sid).getD
                  { rooms := [], sessionId := none, role := none }).rooms := by
              dsimp only at hr
              split at hr
              · exact Or.inr hr
              · rcases List.mem_cons.mp hr with h' | h'
                · exact Or.inl h'
                · exact Or.inr h'
            rcases hr' with rfl | hr'
            · simp [lookupStr_insertStr_self]
            · cases hs : lookupStr st.sockets sid with
              | none => rw [hs] at hr'; simp at hr'
              | some i =>
                  rw [hs] at hr'
                  exact isSome_lookupStr_insertStr _ _ _ _
                    (h (sid, i) (mem_of_lookupStr hs) r hr')
          · exact isSome_lookupStr_insertStr _ _ _ _ (h p hp' r hr)
        split
        · exact key _
        · exact key _
  | pageChange sid sessionId page totalPages =>
      simp only [step, pageChange]
      split
      · exact h
      · exact roomsLive_insert_session _ _ _ h
  | drawStart sid d => exact h
  | drawingEv sid d => exact h
  | drawEnd sid d =>
      simp only [step, drawEnd]
      split
      · exact roomsLive_insert_session _ _ _ h
      · exact h
  | eraserStart sid d => exact h
  | erasing sid d => exact h
  | eraserEnd sid d =>
      simp only [step, eraserEnd]
      split
      · exact roomsLive_insert_session _ _ _ h
      · exact h
  | clearDrawings sid sessionId =>
      simp only [step, clearDrawings]
      split
      · exact roomsLive_insert_session _ _ _ h
      · exact h
  | undoDrawing sid sessionId =>
      simp only [step, undoDrawing]
      split
      · split
        · exact roomsLive_insert_session _ _ _ h
        · exact h
      · exact h
  | pointerMove sid sessionId x y visible => exact h
  | disconnect sid =>
      simp only [step, disconnect]
      have hR : roomsLive { st with sockets := removeStr st.sockets sid } :=
        roomsLive_mono (fun p hp => mem_of_mem_removeStr hp) (fun _ hr => hr) h
      split
      · exact h
      · split
        · exact hR
        · split
          · exact hR
          · split
            · exact roomsLive_insert_session _ _ _ hR
            · exact roomsLive_insert_session _ _ _ hR

theorem roomsLive_reachable {st : ServerState} (h : Reachable st) :
    roomsLive st := by
  induction h with
  | init => intro p hp r hr; simp at hp
  | tail e _ ih => exact roomsLive_step _ e ih

/-- C2: in any reachable server state, an inbound event addressing a session
id that is not live in the store never throws (the step function is total),
leaves the whole server state unchanged, and delivers no outbound event to
any connection — except `join-session`, which sends a single `error` message
("session not found") to the originating connection only. -/
theorem c2_unknown_session_dropped (st : ServerState) (e : InEvent)
    (s : String) (hr : Reachable st) (hs : eventSession e = some s)
    (hdead : lookupStr st.sessions s = none) :
    (step st e).1 = st ∧
    (match e with
     | .joinSession sid _ _ =>
         (step st e).2 =
           [⟨[sid], "error", .errorMsg "세션을 찾을 수 없습니다."⟩]
     | _ => ∀ m ∈ (step st e).2, m.recipients = []) := by
  have hnil : roomMembersL st.sockets s = [] :=
    roomMembersL_eq_nil (roomsLive_reachable hr) hdead
  cases e with
  | createSession genId => simp [eventSession] at hs
  | disconnect sid => simp [eventSession] at hs
  | uploadFile sessionId fileUrl fileType =>
      obtain rfl : sessionId = s := by simpa [eventSession] using hs
      simp [step, uploadFile, hdead]
  | joinSession sid sessionId role =>
      obtain rfl : sessionId = s := by simpa [eventSession] using hs
      simp [step, joinSession, hdead]
  | pageChange sid sessionId page totalPages =>
      obtain rfl : sessionId = s := by simpa [eventSession] using hs
      simp [step, pageChange, hdead]
  | drawStart sid d =>
      have hd : d.sessionId = s := by simpa [eventSession] using hs
      simp [step, roomExcept, hd, hnil]
  | drawingEv sid d =>
      have hd : d.sessionId = s := by simpa [eventSession] using hs
      simp [step, roomExcept, hd, hnil]
  | drawEnd sid d =>
      have hd : d.sessionId = s := by simpa [eventSession] using hs
      simp [step, drawEnd, hd, hdead, roomExcept, hnil]
  | eraserStart sid d =>
      have hd : d.sessionId = s := by simpa [eventSession] using hs
      simp [step, roomExcept, hd, hnil]
  | erasing sid d =>
      have hd : d.sessionId = s := by simpa [eventSession] using hs
      simp [step, roomExcept, hd, hnil]
  | eraserEnd sid d =>
      have hd : d.sessionId = s := by simpa [eventSession] using hs
      simp [step, eraserEnd, hd, hdead, roomExcept, hnil]
  | clearDrawings sid sessionId =>
      obtain rfl : sessionId = s := by simpa [eventSession] using hs
      simp [step, clearDrawings, hdead, roomExcept, hnil]
  | undoDrawing sid sessionId =>
      obtain rfl : sessionId = s := by simpa [eventSession] using hs
      simp [step, undoDrawing, hdead, roomExcept, hnil]
  | pointerMove sid sessionId x y visible =>
      obtain rfl : sessionId = s := by simpa [eventSession] using hs
      simp [step, roomExcept, hnil]

/-- Witness for C2 at a concrete input: a `pointer-move` addressed to the
unknown session "s" in the (reachable) empty server changes nothing and is
delivered to nobody. -/
theorem c2_witness :
    (step ⟨[], []⟩ (.pointerMove "c1" "s" 0 0 true)).1 = ⟨[], []⟩ ∧
    (∀ m ∈ (step ⟨[], []⟩ (.pointerMove "c1" "s" 0 0 true)).2,
      m.recipients = []) :=
  c2_unknown_session_dropped ⟨[], []⟩ (.pointerMove "c1" "s" 0 0 true) "s"
    Reachable.init rfl rfl

/-- A server state in which session "ab" is live and carries one committed
drawing, reached by creating session "ab" and processing a `draw-end`. -/
def c1Collided : ServerState :=
  (step (createSession ⟨[], []⟩ "ab").1 (.drawEnd "x" ⟨"ab", some 7, none⟩)).1

/-- C1 counterexample: the create-session handler performs no collision check
on the id produced by `uuidv4().slice(0, 8)`.  When the generated id equals
the id of the live session "ab", the returned identifier is not distinct from
a live session id, and the live session is silently overwritten. -/
theorem c1_counterexample :
    (createSession c1Collided "ab").2 ∈ liveSessionIds c1Collided ∧
    lookupStr (createSession c1Collided "ab").1.sessions "ab" ≠
      lookupStr c1Collided.sessions "ab" := by
  decide

/-- C1 (amended): provided the freshly generated identifier does not already
name a live session, the returned identifier is distinct from every live
session id, the new session is inserted with the default attributes
(fileUrl null, fileType null, currentPage 1, totalPages 1, no drawings, no
consultant, no customers), and every other session is untouched. -/
theorem c1_create_session_fresh (st : ServerState) (genId : String)
    (h : genId ∉ liveSessionIds st) :
    (createSession st genId).2 = genId ∧
    (∀ k ∈ liveSessionIds st, (createSession st genId).2 ≠ k) ∧
    lookupStr (createSession st genId).1.sessions genId =
      some (defaultSession genId) ∧
    (∀ k, k ≠ genId →
      lookupStr (createSession st genId).1.sessions k =
        lookupStr st.sessions k) := by
  refine ⟨rfl, ?_, lookupStr_insertStr_self _ _ _, ?_⟩
  · intro k hk hEq
    have hgen : genId = k := hEq
    exact h (hgen ▸ hk)
  · intro k hk
    exact lookupStr_insertStr_ne _ _ _ _ hk

/-- Witness for C1 at a concrete input: creating session "s1" in a server
holding only session "s0". -/
theorem c1_witness :
    (createSession (createSession ⟨[], []⟩ "s0").1 "s1").2 = "s1" ∧
    (∀ k ∈ liveSessionIds (createSession ⟨[], []⟩ "s0").1,
      (createSession (createSession ⟨[], []⟩ "s0").1 "s1").2 ≠ k) ∧
    lookupStr
        (createSession (createSession ⟨[], []⟩ "s0").1 "s1").1.sessions "s1" =
      some (defaultSession "s1") ∧
    (∀ k, k ≠ "s1" →
      lookupStr (createSession (createSession ⟨[], []⟩ "s0").1 "s1").1.sessions
          k =
        lookupStr (createSession ⟨[], []⟩ "s0").1.sessions k) :=
  c1_create_session_fresh (createSession ⟨[], []⟩ "s0").1 "s1" (by decide)

/-- C3: joining a live session with role customer delivers to the joining
connection (alone) a `session-state` payload equal to the session's current
fileUrl, fileType, currentPage, totalPages and drawings; a consultant join
never produces a `session-state` message. -/
theorem c3_join_state_replay (st : ServerState) (sid s : String)
    (sess : Session) (h : lookupStr st.sessions s = some sess) :
    (⟨[sid], "session-state",
        .sessionState sess.fileUrl sess.fileType sess.currentPage
          sess.totalPages sess.drawings⟩ : OutMsg) ∈
      (step st (.joinSession sid s "customer")).2 ∧
    (∀ m ∈ (step st (.joinSession sid s "consultant")).2,
      m.event ≠ "session-state") := by
  constructor
  · simp [step, joinSession, h]
  · intro m hm
    simp [step, joinSession, h, sendCustomerCount,
      lookupStr_insertStr_self] at hm
    rcases hm with hm | hm <;> simp [hm]

/-- Witness for C3 at a concrete input: a customer joining session "ab"
(whose drawings hold the single committed payload 7) receives the replayed
state, and a consultant joining it receives none. -/
theorem c3_witness :
    (⟨["c1"], "session-state",
        .sessionState none none 1 1 [7]⟩ : OutMsg) ∈
      (step c1Collided (.joinSession "c1" "ab" "customer")).2 ∧
    (∀ m ∈ (step c1Collided (.joinSession "c1" "ab" "consultant")).2,
      m.event ≠ "session-state") :=
  c3_join_state_replay c1Collided "c1" "ab"
    { defaultSession "ab" with drawings := [7] } rfl

/-- C4: immediately after a `page-change` or a file upload applied to a live
session, that session's drawings sequence is empty. -/
theorem c4_page_and_file_clear_drawings (st : ServerState)
    (sid s fileUrl fileType : String) (page totalPages : Int)
    (sess : Session) (h : lookupStr st.sessions s = some sess) :
    (lookupStr (step st (.pageChange sid s page totalPages)).1.sessions
        s).map Session.drawings = some [] ∧
    (lookupStr (step st (.uploadFile s fileUrl fileType)).1.sessions s).map
      Session.drawings = some [] := by
  constructor
  · simp [step, pageChange, h, lookupStr_insertStr_self]
  · simp [step, uploadFile, h, lookupStr_insertStr_self]

/-- Witness for C4 at a concrete input: a page change and an upload on the
freshly created session "s". -/
theorem c4_witness :
    (lookupStr (step (createSession ⟨[], []⟩ "s").1
        (.pageChange "c1" "s" 2 5)).1.sessions "s").map Session.drawings =
      some [] ∧
    (lookupStr (step (createSession ⟨[], []⟩ "s").1
        (.uploadFile "s" "http://h/u.pdf" "pdf")).1.sessions "s").map
      Session.drawings = some [] :=
  c4_page_and_file_clear_drawings (createSession ⟨[], []⟩ "s").1 "c1" "s"
    "http://h/u.pdf" "pdf" 2 5 (defaultSession "s") rfl

/-- C6: on a live session, a `draw-end` carrying a present drawing payload
followed immediately by an `undo-drawing` restores the drawings sequence to
exactly its value before the append. -/
theorem c6_draw_undo_roundtrip (st : ServerState) (sid1 sid2 s : String)
    (op : DrawingOp) (sess : Session)
    (h : lookupStr st.sessions s = some sess) :
    (lookupStr (runEvents st
        [.drawEnd sid1 ⟨s, some op, none⟩,
         .undoDrawing sid2 s]).sessions s).map Session.drawings =
      some sess.drawings := by
  simp [runEvents, step, drawEnd, undoDrawing, h, lookupStr_insertStr_self]

/-- Witness for C6 at a concrete input: appending drawing 9 to session "ab"
(which already holds drawing 7) and undoing it restores the sequence [7]. -/
theorem c6_witness :
    (lookupStr (runEvents c1Collided
        [.drawEnd "cA" ⟨"ab", some 9, none⟩,
         .undoDrawing "cB" "ab"]).sessions "ab").map Session.drawings =
      some [7] :=
  c6_draw_undo_roundtrip c1Collided "cA" "cB" "ab" 9
    { defaultSession "ab" with drawings := [7] } rfl

/-- C7: an `undo-drawing` on a live session whose drawings sequence is empty
never errors and leaves the whole server state (in particular that session's
drawings and every other field) unchanged. -/
theorem c7_undo_empty_noop (st : ServerState) (sid s : String)
    (sess : Session) (h : lookupStr st.sessions s = some sess)
    (he : sess.drawings = []) :
    (step st (.undoDrawing sid s)).1 = st := by
  simp [step, undoDrawing, h, he]

/-- Witness for C7 at a concrete input: undo on the freshly created (empty)
session "s". -/
theorem c7_witness :
    (step (createSession ⟨[], []⟩ "s").1 (.undoDrawing "c1" "s")).1 =
      (createSession ⟨[], []⟩ "s").1 :=
  c7_undo_empty_noop (createSession ⟨[], []⟩ "s").1 "c1" "s"
    (defaultSession "s") rfl rfl

/-- C9: a consultant join on a live session sets the consultant slot to the
joining connection (replacing the previous occupant), while the previous
consultant's socket entry is untouched and it remains a member of the
session's room. -/
theorem c9_consultant_last_join_wins (st : ServerState) (sid s c0 : String)
    (sess : Session) (h : lookupStr st.sessions s = some sess)
    (_hc : sess.consultant = some c0) (hne : c0 ≠ sid) :
    (lookupStr (step st (.joinSession sid s "consultant")).1.sessions s).map
        Session.consultant = some (some sid) ∧
    lookupStr (step st (.joinSession sid s "consultant")).1.sockets c0 =
      lookupStr st.sockets c0 ∧
    (c0 ∈ roomMembers st s →
      c0 ∈ roomMembers (step st (.joinSession sid s "consultant")).1 s) := by
  refine ⟨?_, ?_, ?_⟩
  · simp [step, joinSession, h, lookupStr_insertStr_self]
  · simp only [step, joinSession, h]
    simp [lookupStr_insertStr_ne _ _ _ _ hne]
  · intro hm
    rcases mem_roomMembersL.mp hm with ⟨i, hmem, hri⟩
    simp only [step, joinSession, h]
    simp only [roomMembers, if_pos rfl]
    exact mem_roomMembersL.mpr ⟨i, mem_insertStr_of_ne hmem hne, hri⟩

/-- The state after consultant "con0" joins the freshly created session
"s". -/
def c9State : ServerState :=
  (step (createSession ⟨[], []⟩ "s").1
    (.joinSession "con0" "s" "consultant")).1

/-- Witness for C9 at a concrete input: consultant "con1" joins session "s"
where "con0" is the current consultant. -/
theorem c9_witness :
    (lookupStr (step c9State (.joinSession "con1" "s" "consultant")).1.sessions
        "s").map Session.consultant = some (some "con1") ∧
    lookupStr (step c9State (.joinSession "con1" "s" "consultant")).1.sockets
        "con0" = lookupStr c9State.sockets "con0" ∧
    ("con0" ∈ roomMembers c9State "s" →
      "con0" ∈ roomMembers
        (step c9State (.joinSession "con1" "s" "consultant")).1 "s") :=
  c9_consultant_last_join_wins c9State "con1" "s" "con0"
    { defaultSession "s" with consultant := some "con0" } rfl rfl (by decide)

/-- C5 counterexample: a customer joining the live session "s" is itself the
recipient of the resulting `session-state` message, although that message is
not a `customer-count` update — so not every resulting outbound event goes
only to the other connections. -/
theorem c5_counterexample :
    ∃ m ∈ (step (createSession ⟨[], []⟩ "s").1
        (.joinSession "c1" "s" "customer")).2,
      m.event ≠ "customer-count" ∧ m.recipients = ["c1"] := by
  decide

/-- C5 (amended): every outbound message produced by a peer-originated
inbound event goes to all other connections in the event's session and never
to the sender, with these exceptions: `customer-count` updates go to all
connections of the session including the sender and the consultant, and the
join-session handler sends `session-state` (customer join) and `error`
(unknown session) to the originating connection only. -/
theorem c5_routing (st : ServerState) (e : InEvent) (sid s : String)
    (hsend : senderOf e = some sid) (ht : targetRoom st e = some s) :
    ∀ m ∈ (step st e).2,
      (m.event = "customer-count" ∧
        m.recipients = roomMembers (step st e).1 s) ∨
      ((m.event = "session-state" ∨ m.event = "error") ∧
        m.recipients = [sid]) ∨
      (m.event ≠ "customer-count" ∧ m.event ≠ "session-state" ∧
        m.event ≠ "error" ∧
        m.recipients = roomExcept (step st e).1.sockets s sid) := by
  cases e with
  | createSession genId => simp [senderOf] at hsend
  | uploadFile sessionId fileUrl fileType => simp [senderOf] at hsend
  | joinSession sid' sessionId role =>
      obtain rfl : sid' = sid := by simpa [senderOf] using hsend
      obtain rfl : sessionId = s := by
        simpa [targetRoom, eventSession] using ht
      cases hl : lookupStr st.sessions sessionId with
      | none =>
          simp only [step, joinSession, hl]
          intro m hm
          simp at hm
          subst hm
          simp
      | some sess =>
          by_cases hrole : role = "consultant"
          · simp only [step, joinSession, hl, if_pos hrole]
            intro m hm
            simp [sendCustomerCount, lookupStr_insertStr_self] at hm
            rcases hm with hm | hm <;> subst hm <;>
              simp [sendCustomerCount, lookupStr_insertStr_self, roomMembers]
          · simp only [step, joinSession, hl, if_neg hrole]
            intro m hm
            simp [sendCustomerCount, lookupStr_insertStr_self] at hm
            rcases hm with hm | hm | hm <;> subst hm <;>
              simp [sendCustomerCount, lookupStr_insertStr_self, roomMembers]
  | pageChange sid' sessionId page totalPages =>
      obtain rfl : sid' = sid := by simpa [senderOf] using hsend
      obtain rfl : sessionId = s := by
        simpa [targetRoom, eventSession] using ht
      cases hl : lookupStr st.sessions sessionId with
      | none => simp [step, pageChange, hl]
      | some sess =>
          simp only [step, pageChange, hl]
          intro m hm
          simp at hm
          subst hm
          simp
  | drawStart sid' d =>
      obtain rfl : sid' = sid := by simpa [senderOf] using hsend
      obtain rfl : d.sessionId = s := by
        simpa [targetRoom, eventSession] using ht
      intro m hm
      simp [step] at hm
      subst hm
      simp [step]
  | drawingEv sid' d =>
      obtain rfl : sid' = sid := by simpa [senderOf] using hsend
      obtain rfl : d.sessionId = s := by
        simpa [targetRoom, eventSession] using ht
      intro m hm
      simp [step] at hm
      subst hm
      simp [step]
  | drawEnd sid' d =>
      obtain rfl : sid' = sid := by simpa [senderOf] using hsend
      obtain rfl : d.sessionId = s := by
        simpa [targetRoom, eventSession] using ht
      intro m hm
      simp [step, drawEnd] at hm
      subst hm
      refine Or.inr (Or.inr ⟨by simp, by simp, by simp, ?_⟩)
      simp only [step, drawEnd]
      rcases hl : lookupStr st.sessions d.sessionId with _ | sess <;>
        rcases hdata : d.drawingData with _ | op <;> simp [roomExcept]
  | eraserStart sid' d =>
      obtain rfl : sid' = sid := by simpa [senderOf] using hsend
      obtain rfl : d.sessionId = s := by
        simpa [targetRoom, eventSession] using ht
      intro m hm
      simp [step] at hm
      subst hm
      simp [step]
  | erasing sid' d =>
      obtain rfl : sid' = sid := by simpa [senderOf] using hsend
      obtain rfl : d.sessionId = s := by
        simpa [targetRoom, eventSession] using ht
      intro m hm
      simp [step] at hm
      subst hm
      simp [step]
  | eraserEnd sid' d =>
      obtain rfl : sid' = sid := by simpa [senderOf] using hsend
      obtain rfl : d.sessionId = s := by
        simpa [targetRoom, eventSession] using ht
      intro m hm
      simp [step, eraserEnd] at hm
      subst hm
      refine Or.inr (Or.inr ⟨by simp, by simp, by simp, ?_⟩)
      simp only [step, eraserEnd]
      rcases hl : lookupStr st.sessions d.sessionId with _ | sess <;>
        rcases hdata : d.eraserData with _ | op <;> simp [roomExcept]
  | clearDrawings sid' sessionId =>
      obtain rfl : sid' = sid := by simpa [senderOf] using hsend
      obtain rfl : sessionId = s := by
        simpa [targetRoom, eventSession] using ht
      intro m hm
      simp [step, clearDrawings] at hm
      subst hm
      refine Or.inr (Or.inr ⟨by simp, by simp, by simp, ?_⟩)
      simp only [step, clearDrawings]
      rcases hl : lookupStr st.sessions sessionId with _ | sess <;> simp [roomExcept]
  | undoDrawing sid' sessionId =>
      obtain rfl : sid' = sid := by simpa [senderOf] using hsend
      obtain rfl : sessionId = s := by
        simpa [targetRoom, eventSession] using ht
      intro m hm
      simp [step, undoDrawing] at hm
      subst hm
      refine Or.inr (Or.inr ⟨by simp, by simp, by simp, ?_⟩)
      simp only [step, undoDrawing]
      rcases hl : lookupStr st.sessions sessionId with _ | sess
      · simp [roomExcept]
      · simp [roomExcept]
        split <;> simp
  | pointerMove sid' sessionId x y visible =>
      obtain rfl : sid' = sid := by simpa [senderOf] using hsend
      obtain rfl : sessionId = s := by
        simpa [targetRoom, eventSession] using ht
      intro m hm
      simp [step] at hm
      subst hm
      simp [step]
  | disconnect sid' =>
      obtain rfl : sid' = sid := by simpa [senderOf] using hsend
      cases hsock : lookupStr st.sockets sid' with
      | none => rw [targetRoom, hsock] at ht; simp at ht
      | some info =>
          have hsid : info.sessionId = some s := by
            rw [targetRoom, hsock] at ht
            simpa using ht
          simp only [step, disconnect, hsock, hsid]
          cases hl : lookupStr st.sessions s with
          | none =>
              intro m hm
              simp [hl] at hm
              subst hm
              simp [hl, roomExcept]
          | some sess =>
              by_cases hrole : info.role = some "consultant"
              · simp only [hl, if_pos hrole]
                intro m hm
                simp at hm
                subst hm
                simp [hl, hrole, roomExcept]
              · simp only [hl, if_neg hrole]
                intro m hm
                simp [sendCustomerCount, lookupStr_insertStr_self] at hm
                rcases hm with hm | hm <;> subst hm <;>
                  simp [sendCustomerCount, lookupStr_insertStr_self,
                    roomMembers, hl, hrole, roomExcept]

/-- Witness for C5 at a concrete input: a `page-change` by the consultant in
a session with one joined consultant. -/
theorem c5_witness :
    ((⟨[], "page-changed", .pageChanged 2 5⟩ : OutMsg).event =
        "customer-count" ∧
      (⟨[], "page-changed", .pageChanged 2 5⟩ : OutMsg).recipients =
        roomMembers (step c9State (.pageChange "con0" "s" 2 5)).1 "s") ∨
    (((⟨[], "page-changed", .pageChanged 2 5⟩ : OutMsg).event =
          "session-state" ∨
        (⟨[], "page-changed", .pageChanged 2 5⟩ : OutMsg).event = "error") ∧
      (⟨[], "page-changed", .pageChanged 2 5⟩ : OutMsg).recipients =
        ["con0"]) ∨
    ((⟨[], "page-changed", .pageChanged 2 5⟩ : OutMsg).event ≠
        "customer-count" ∧
      (⟨[], "page-changed", .pageChanged 2 5⟩ : OutMsg).event ≠
        "session-state" ∧
      (⟨[], "page-changed", .pageChanged 2 5⟩ : OutMsg).event ≠ "error" ∧
      (⟨[], "page-changed", .pageChanged 2 5⟩ : OutMsg).recipients =
        roomExcept (step c9State (.pageChange "con0" "s" 2 5)).1.sockets
          "s" "con0") :=
  c5_routing c9State (.pageChange "con0" "s" 2 5) "con0" "s" rfl rfl
    ⟨[], "page-changed", .pageChanged 2 5⟩ (by decide)

/-- A batch of customer joins into session `s`. -/
def joinEvents (s : String) (cs : List String) : List InEvent :=
  cs.map (fun c => .joinSession c s "customer")

theorem runEvents_append (st : ServerState) (es1 es2 : List InEvent) :
    runEvents st (es1 ++ es2) = runEvents (runEvents st es1) es2 :=
  List.foldl_append ..

theorem join_customer_effect (st : ServerState) (c s : String)
    (sess : Session) (h : lookupStr st.sessions s = some sess)
    (hc : c ∉ sess.customers) :
    lookupStr (step st (.joinSession c s "customer")).1.sessions s =
      some { sess with customers := c :: sess.customers } ∧
    (∀ k, k ≠ s →
      lookupStr (step st (.joinSession c s "customer")).1.sessions k =
        lookupStr st.sessions k) ∧
    (∃ i, lookupStr (step st (.joinSession c s "customer")).1.sockets c =
        some i ∧ i.sessionId = some s ∧ i.role = some "customer") ∧
    (∀ x, x ≠ c →
      lookupStr (step st (.joinSession c s "customer")).1.sockets x =
        lookupStr st.sockets x) := by
  have hif : ¬ ("customer" : String) = "consultant" := by decide
  simp only [step, joinSession, h, if_neg hif]
  refine ⟨?_, ?_, ?_, ?_⟩
  · simp [hc, lookupStr_insertStr_self]
  · intro k hk
    simp [lookupStr_insertStr_ne _ _ _ _ hk]
  · exact ⟨_, lookupStr_insertStr_self _ _ _, rfl, rfl⟩
  · intro x hx
    simp [lookupStr_insertStr_ne _ _ _ _ hx]

theorem join_phase (cs : List String) (st : ServerState) (s : String)
    (sess : Session) (h : lookupStr st.sessions s = some sess)
    (hnd : cs.Nodup) (hdisj : ∀ c ∈ cs, c ∉ sess.customers) :
    lookupStr (runEvents st (joinEvents s cs)).sessions s =
      some { sess with customers := cs.reverse ++ sess.customers } ∧
    (∀ c ∈ cs,
      ∃ i, lookupStr (runEvents st (joinEvents s cs)).sockets c = some i ∧
        i.sessionId = some s ∧ i.role = some "customer") ∧
    (∀ x, x ∉ cs →
      lookupStr (runEvents st (joinEvents s cs)).sockets x =
        lookupStr st.sockets x) := by
  induction cs generalizing st sess with
  | nil =>
      refine ⟨by simp [runEvents, joinEvents, h], by simp, by
        simp [runEvents, joinEvents]⟩
  | cons c rest ih =>
      obtain ⟨h1, _h2, h3, h4⟩ :=
        join_customer_effect st c s sess h (hdisj c (by simp))
      have hr : runEvents st (joinEvents s (c :: rest)) =
          runEvents (step st (.joinSession c s "customer")).1
            (joinEvents s rest) := by
        simp [runEvents, joinEvents]
      have hnd' : rest.Nodup := hnd.of_cons
      have hcnotin : c ∉ rest := (List.nodup_cons.mp hnd).1
      have hdisj' : ∀ c' ∈ rest, c' ∉ c :: sess.customers := by
        intro c' hc' hmem
        rcases List.mem_cons.mp hmem with rfl | hmem
        · exact hcnotin hc'
        · exact hdisj c' (List.mem_cons_of_mem _ hc') hmem
      obtain ⟨H1, H2, H3⟩ := ih (step st (.joinSession c s "customer")).1
        { sess with customers := c :: sess.customers } h1 hnd' hdisj'
      refine ⟨?_, ?_, ?_⟩
      · rw [hr, H1]
        simp
      · intro c' hc'
        rcases List.mem_cons.mp hc' with rfl | hc'
        · rw [hr, H3 c' hcnotin]
          exact h3
        · rw [hr]
          exact H2 c' hc'
      · intro x hx
        rw [hr, H3 x (fun hm => hx (List.mem_cons_of_mem _ hm)),
          h4 x (fun hm => hx (by simp [hm]))]

theorem disconnect_customer_effect (st : ServerState) (c s : String)
    (i : SocketInfo) (sess : Session)
    (hsock : lookupStr st.sockets c = some i) (hsid : i.sessionId = some s)
    (hrole : ¬ i.role = some "consultant")
    (h : lookupStr st.sessions s = some sess) :
    lookupStr (step st (.disconnect c)).1.sessions s =
      some { sess with customers := sess.customers.erase c } ∧
    (∀ x, x ≠ c →
      lookupStr (step st (.disconnect c)).1.sockets x =
        lookupStr st.sockets x) := by
  simp only [step, disconnect, hsock, hsid, h, if_neg hrole]
  refine ⟨by simp [lookupStr_insertStr_self], ?_⟩
  intro x hx
  simp [lookupStr_removeStr_ne _ _ _ hx]

theorem leave_phase (ds : List String) (st : ServerState) (s : String)
    (sess : Session) (h : lookupStr st.sessions s = some sess)
    (hnd : ds.Nodup) (hndc : sess.customers.Nodup)
    (hmem : ∀ d ∈ ds, d ∈ sess.customers)
    (hsock : ∀ d ∈ ds, ∃ i, lookupStr st.sockets d = some i ∧
        i.sessionId = some s ∧ ¬ i.role = some "consultant") :
    ∃ sess',
      lookupStr (runEvents st (ds.map .disconnect)).sessions s = some sess' ∧
      sess'.customers.length = sess.customers.length - ds.length := by
  induction ds generalizing st sess with
  | nil => exact ⟨sess, by simpa [runEvents] using h, by simp⟩
  | cons d rest ih =>
      obtain ⟨i, hi, hisid, hirole⟩ := hsock d (by simp)
      obtain ⟨h1, h2⟩ := disconnect_customer_effect st d s i sess hi hisid
        hirole h
      have hr : runEvents st ((d :: rest).map InEvent.disconnect) =
          runEvents (step st (.disconnect d)).1
            (rest.map InEvent.disconnect) := by
        simp [runEvents]
      have hdnotin : d ∉ rest := (List.nodup_cons.mp hnd).1
      obtain ⟨sess', H1, H2⟩ := ih (step st (.disconnect d)).1
        { sess with customers := sess.customers.erase d } h1 hnd.of_cons
        (hndc.erase d)
        (fun d' hd' => (List.mem_erase_of_ne
          (ne_of_mem_of_not_mem hd' hdnotin)).mpr
          (hmem d' (List.mem_cons_of_mem _ hd')))
        (fun d' hd' => by
          obtain ⟨i', hi', hsid', hrole'⟩ :=
            hsock d' (List.mem_cons_of_mem _ hd')
          exact ⟨i', by
            rw [h2 d' (ne_of_mem_of_not_mem hd' hdnotin)]
            exact hi', hsid', hrole'⟩)
      refine ⟨sess', by rw [hr]; exact H1, ?_⟩
      rw [H2]
      simp only [List.length_cons]
      rw [List.length_erase_of_mem (hmem d (by simp))]
      omega

/-- C8: the customer count of an unknown session is 0, and after N customer
joins by distinct connections into an (initially customer-free) live session
followed by M disconnects of distinct connections among those joined, the
session's customer count equals N − M. -/
theorem c8_customer_count (st : ServerState) (s : String) (sess : Session)
    (cs ds : List String) (h : lookupStr st.sessions s = some sess)
    (h0 : sess.customers = []) (hcs : cs.Nodup) (hds : ds.Nodup)
    (hsub : ∀ d ∈ ds, d ∈ cs) :
    customerCount (runEvents st
        (joinEvents s cs ++ ds.map .disconnect)) s =
      cs.length - ds.length ∧
    (∀ st' : ServerState, ∀ sid : String,
      lookupStr st'.sessions sid = none → customerCount st' sid = 0) := by
  refine ⟨?_, fun st' sid hnone => by simp [customerCount, hnone]⟩
  obtain ⟨H1, H2, _H3⟩ := join_phase cs st s sess h hcs (by simp [h0])
  rw [runEvents_append]
  have hcust : ({ sess with customers := cs.reverse ++ sess.customers } :
      Session).customers = cs.reverse := by simp [h0]
  obtain ⟨sess', K1, K2⟩ := leave_phase ds
    (runEvents st (joinEvents s cs)) s
    { sess with customers := cs.reverse ++ sess.customers } H1 hds
    (by rw [hcust]; exact List.nodup_reverse.mpr hcs)
    (fun d hd => by rw [hcust]; exact List.mem_reverse.mpr (hsub d hd))
    (fun d hd => by
      obtain ⟨i, hi, hsid, hrole⟩ := H2 d (hsub d hd)
      exact ⟨i, hi, hsid, by simp [hrole]⟩)
  have hcc : customerCount (runEvents (runEvents st (joinEvents s cs))
      (ds.map .disconnect)) s = sess'.customers.length := by
    simp [customerCount, K1]
  rw [hcc, K2, hcust]
  simp

/-- Witness for C8 at a concrete input: customers "cA" and "cB" join the
fresh session "s" and "cA" disconnects, leaving a count of 2 − 1; and the
unknown-session count is 0. -/
theorem c8_witness :
    customerCount (runEvents (createSession ⟨[], []⟩ "s").1
        (joinEvents "s" ["cA", "cB"] ++ ["cA"].map InEvent.disconnect)) "s" =
      (["cA", "cB"] : List String).length - (["cA"] : List String).length ∧
    (∀ st' : ServerState, ∀ sid : String,
      lookupStr st'.sessions sid = none → customerCount st' sid = 0) :=
  c8_customer_count (createSession ⟨[], []⟩ "s").1 "s" (defaultSession "s")
    ["cA", "cB"] ["cA"] rfl rfl (by decide) (by decide) (by decide)

/-- C10: when a socket whose recorded role is consultant disconnects, the
consultant slot of its recorded session is set to null unconditionally — no
hypothesis on the current occupant of the slot is needed. -/
theorem c10_consultant_slot_cleared (st : ServerState) (sid s : String)
    (info : SocketInfo) (sess : Session)
    (hi : lookupStr st.sockets sid = some info)
    (hrole : info.role = some "consultant") (hsid : info.sessionId = some s)
    (hl : lookupStr st.sessions s = some sess) :
    (lookupStr (step st (.disconnect sid)).1.sessions s).map
      Session.consultant = some none := by
  simp [step, disconnect, hi, hsid, hrole, hl, lookupStr_insertStr_self]

/-- The state after consultant "con0" joins session "s" and consultant "con1"
then replaces it in the slot. -/
def c10State : ServerState :=
  runEvents (createSession ⟨[], []⟩ "s").1
    [.joinSession "con0" "s" "consultant",
     .joinSession "con1" "s" "consultant"]

/-- Witness for C10 at a concrete input: in the two-consultant scenario the
first consultant's disconnect leaves the session with no consultant at all,
rather than with "con1". -/
theorem c10_witness :
    (lookupStr (step c10State (.disconnect "con0")).1.sessions "s").map
      Session.consultant = some none :=
  c10_consultant_slot_cleared c10State "con0" "s"
    ⟨["s"], some "s", some "consultant"⟩
    { defaultSession "s" with consultant := some "con1" } rfl rfl rfl rfl

end ScreenShare
